import Mathlib

/-
  Verification development for the ship-tracker repository.

  The definitions below are shallow embeddings of the TypeScript sources:
  - `GitHubUtils` embeds src/lib/GitHubUtils.ts (executeWithRetry, executeInBatches);
  - `GithubLib` embeds src/lib/github.ts (fetchGithubUserData, fetchUserPullRequests);
  - `GithubV2` embeds the detailed/efficient aggregator variant of the repository
    (src/unnamed/part_002, second document: fetchGithubUserData with username
    validation, detailedAnalysis, efficientAnalysis);
  - `Page` embeds src/app/page.tsx (handleAddUsers, handleRetryUser).

  Machine numbers are modelled as Nat/Int; JavaScript Math.round of an exact
  rational a/b is modelled by jsRoundDiv (floating point is idealised as exact
  rational arithmetic).  Wall-clock time is an explicit Nat parameter (ms);
  time is held fixed within a single executor invocation.  Network calls are
  modelled by an environment of outcomes, and the number of environment
  consultations is threaded explicitly where a claim counts network calls.
-/

namespace ShipTracker

/-- JavaScript `Math.round(a / b)` for natural `a`, positive `b`, with the
division idealised as exact rational arithmetic: rounds half up.
For `b = 0` the value is irrelevant to every use site (all source call
sites have a constant positive denominator or a positivity guard). -/
def jsRoundDiv (a b : Nat) : Nat := (2 * a + b) / (2 * b)

/-- JavaScript `Math.ceil(a / b)` for naturals, idealised as exact. -/
def natCeilDiv (a b : Nat) : Nat := (a + b - 1) / b

/-- Shape of a thrown GitHub API error, from the `GitHubApiError` interface of
src/lib/GitHubUtils.ts: an HTTP status, the optional
`response.headers["x-ratelimit-remaining"]` string and the optional
`response.headers["x-ratelimit-reset"]` value (already parsed to a number;
`none` models a missing/empty header, i.e. a falsy `resetTime`). -/
structure ApiError where
  status : Nat
  remaining : Option String
  reset : Option Nat
deriving DecidableEq, Repr

/-- Outcome of one invocation of an API request function: the promise either
fulfills with a value or rejects with an error. -/
inductive ReqOutcome (V : Type) where
  | ok (v : V)
  | err (e : ApiError)
deriving DecidableEq, Repr

/-- Result of `executeWithRetry`: the returned value, the thrown
`RateLimitError`, or the rethrown original error. -/
inductive RetryResult (V : Type) where
  | ok (v : V)
  | rateLimitError
  | errThrown (e : ApiError)
deriving DecidableEq, Repr

/-- The quota-exhaustion test of src/lib/GitHubUtils.ts lines 84-92:
`status === 403` and `x-ratelimit-remaining === "0"` (an error without a
`response` object has `remaining = none` and is not quota-exhausted). -/
def isQuotaExhausted (e : ApiError) : Bool :=
  e.status == 403 && e.remaining == some "0"

/-- Result of the retry loop of `executeWithRetry`: final result, number of
invocations of the request function, and the list of sleep durations (ms)
performed before each retry, in order. -/
structure LoopOutcome (V : Type) where
  result : RetryResult V
  calls : Nat
  sleeps : List Int
deriving DecidableEq, Repr

/-- Body of the `while (true)` retry loop of src/lib/GitHubUtils.ts lines
68-118, written with an explicit structural budget so that it evaluates.
The budget only bounds the recursion: at every call site it equals
`maxRetries + 1 - retries`, which the quota check `maxRetries ≤ retries`
reaches before the budget can run out, so the budget-exhausted branch is
unreachable from `retryLoop`.  `fn k` is the outcome of the request function
on its (k+1)-th invocation; `retries` and `delay` are the loop variables;
`now` is the wall clock (ms) used in the reset-based wait computation
(line 107). -/
def retryLoopGo {V : Type} (fn : Nat → ReqOutcome V) (maxRetries now : Nat) :
    Nat → Nat → Nat → LoopOutcome V
  | 0, _, _ => ⟨.rateLimitError, 0, []⟩
  | budget + 1, retries, delay =>
    match fn retries with
    | .ok v => ⟨.ok v, 1, []⟩
    | .err e =>
      if isQuotaExhausted e then
        if maxRetries ≤ retries then ⟨.rateLimitError, 1, []⟩
        else
          match e.reset with
          | none =>
            let rest := retryLoopGo fn maxRetries now budget (retries + 1) (delay * 2)
            ⟨rest.result, rest.calls + 1, ((delay : Int)) :: rest.sleeps⟩
          | some r =>
            let rest := retryLoopGo fn maxRetries now budget (retries + 1) delay
            ⟨rest.result, rest.calls + 1,
              (max ((r : Int) * 1000 - (now : Int) + 1000) 1000) :: rest.sleeps⟩
      else ⟨.errThrown e, 1, []⟩

/-- The `while (true)` retry loop of src/lib/GitHubUtils.ts lines 68-118,
entered with loop variables `retries` and `delay`. -/
def retryLoop {V : Type} (fn : Nat → ReqOutcome V) (maxRetries now : Nat)
    (retries delay : Nat) : LoopOutcome V :=
  retryLoopGo fn maxRetries now (maxRetries + 1 - retries) retries delay

/-- One entry of the response cache (`CacheEntry` of src/lib/GitHubUtils.ts). -/
structure CacheEntry (V : Type) where
  data : V
  timestamp : Nat
  expiresAt : Nat
deriving DecidableEq, Repr

/-- The response cache, modelled as an association list; `cacheSet` prepends,
and `cacheGet` returns the most recent binding, which matches
`Map.set`/`Map.get` observationally. -/
abbrev Cache (V : Type) : Type := List (String × CacheEntry V)

/-- `responseCache.get k` of src/lib/GitHubUtils.ts line 56. -/
def cacheGet {V : Type} (c : Cache V) (k : String) : Option (CacheEntry V) :=
  match List.find? (fun p => p.1 == k) c with
  | some p => some p.2
  | none => none

/-- `responseCache.set k e` of src/lib/GitHubUtils.ts line 74. -/
def cacheSet {V : Type} (c : Cache V) (k : String) (e : CacheEntry V) : Cache V :=
  (k, e) :: c

/-- Full observable outcome of one `executeWithRetry` call. -/
structure ExecOutcome (V : Type) where
  result : RetryResult V
  cache : Cache V
  calls : Nat
  sleeps : List Int
deriving DecidableEq, Repr

/-- The no-cache-hit continuation of `executeWithRetry` (src/lib/GitHubUtils.ts
lines 65-118): run the retry loop and, when it returns a value and a cache
key was given, store the value with its expiry (lines 72-79). -/
def runFresh {V : Type} (fn : Nat → ReqOutcome V) (cacheKey : Option String)
    (cacheDuration maxRetries initialDelay : Nat) (cache : Cache V) (now : Nat) :
    ExecOutcome V :=
  let lr := retryLoop fn maxRetries now 0 initialDelay
  match lr.result, cacheKey with
  | .ok v, some k =>
    ⟨.ok v, cacheSet cache k ⟨v, now, now + cacheDuration⟩, lr.calls, lr.sleeps⟩
  | r, _ => ⟨r, cache, lr.calls, lr.sleeps⟩

/-- `executeWithRetry` of src/lib/GitHubUtils.ts lines 47-119.  The global
`responseCache` is passed and returned explicitly; `now` is the wall clock
(ms) during the call (the three `Date.now()` reads of the source are not
distinguished, as no claim depends on time advancing within one call).
Source defaults: `cacheDuration = 5*60*1000`, `maxRetries = 3`,
`initialDelay = 1000`. -/
def executeWithRetry {V : Type} (fn : Nat → ReqOutcome V) (cacheKey : Option String)
    (cacheDuration maxRetries initialDelay : Nat) (cache : Cache V) (now : Nat) :
    ExecOutcome V :=
  match cacheKey with
  | some k =>
    match cacheGet cache k with
    | some entry =>
      if now < entry.expiresAt then ⟨.ok entry.data, cache, 0, []⟩
      else runFresh fn cacheKey cacheDuration maxRetries initialDelay cache now
    | none => runFresh fn cacheKey cacheDuration maxRetries initialDelay cache now
  | none => runFresh fn cacheKey cacheDuration maxRetries initialDelay cache now

/-- `executeWithRetry(fn)` with all optional arguments defaulted, as called by
`executeInBatches` (src/lib/GitHubUtils.ts line 136); with no cache key the
global cache is neither read nor written, so the empty cache is passed. -/
def execDefault {V : Type} (fn : Nat → ReqOutcome V) (now : Nat) : RetryResult V :=
  (executeWithRetry fn none (5 * 60 * 1000) 3 1000 [] now).result

/-- Loop body of `executeInBatches` (src/lib/GitHubUtils.ts lines 132-150):
groups of `batchSize` requests, each run through `executeWithRetry` with
defaults and settled (`Promise.allSettled` collects each outcome in input
order), with a 1000 ms sleep after every batch that is not the last.
Returns the ordered outcome list and the list of inter-batch sleep
durations.  The structural fuel is the length of the remaining request
list at the entry point, which the batch loop (consuming at least one
request per iteration when `0 < batchSize`) never exhausts, so the
fuel-exhausted branch is unreachable from `executeInBatches`. -/
def executeInBatchesGo {V : Type} (now batchSize : Nat) :
    Nat → List (Nat → ReqOutcome V) → List (RetryResult V) × List Nat
  | _, [] => ([], [])
  | 0, _ :: _ => ([], [])
  | fuel + 1, r :: rs =>
    let batch := (r :: rs).take batchSize
    let rest := (r :: rs).drop batchSize
    let batchResults := batch.map (fun fn => execDefault fn now)
    let restOut := executeInBatchesGo now batchSize fuel rest
    (batchResults ++ restOut.1, (if rest.isEmpty then [] else [1000]) ++ restOut.2)

/-- `executeInBatches` of src/lib/GitHubUtils.ts lines 126-153: consecutive
groups of `batchSize` requests, each run through `executeWithRetry` with
defaults and settled in input order, with a 1000 ms sleep after every batch
that is not the last.  For `batchSize = 0` the JavaScript loop does not
terminate; the model returns the empty outcome there and every theorem about
this function assumes `0 < batchSize`. -/
def executeInBatches {V : Type} (reqs : List (Nat → ReqOutcome V)) (batchSize : Nat)
    (now : Nat) : List (RetryResult V) × List Nat :=
  match batchSize with
  | 0 => ([], [])
  | b + 1 => executeInBatchesGo now (b + 1) reqs.length reqs

/-- Tail of the GitHub-handle regular expression
`/^[a-z\d](?:[a-z\d]|-(?=[a-z\d])){0,38}$/i` (src/unnamed/part_002 line 186):
up to `budget` further characters, each either alphanumeric or a hyphen whose
lookahead requires the next character to be alphanumeric. -/
def handleTail : List Char → Nat → Bool
  | [], _ => true
  | _ :: _, 0 => false
  | c :: rest, budget + 1 =>
    if c.isAlphanum then handleTail rest budget
    else if c = '-' then
      match rest with
      | c2 :: _ => c2.isAlphanum && handleTail rest budget
      | [] => false
    else false

/-- The GitHub-handle grammar as tested by the validation regex of
src/unnamed/part_002 line 186: a leading ASCII alphanumeric character
followed by at most 38 characters, each alphanumeric or a hyphen immediately
followed by an alphanumeric (so no leading/trailing hyphen, no double
hyphen, and total length at most 39).  The `i` flag makes letter case
irrelevant, which `Char.isAlphanum` (ASCII letters and digits) matches. -/
def validUsername (s : String) : Bool :=
  match s.data with
  | [] => false
  | c :: rest => c.isAlphanum && handleTail rest 38

namespace GithubLib

/-- `data` of `octokit.users.getByUsername` as used by src/lib/github.ts. -/
structure UserData where
  login : String
  avatar_url : String
deriving DecidableEq, Repr

/-- A repository as used by src/lib/github.ts (only `name` is read). -/
structure Repo where
  name : String
deriving DecidableEq, Repr

/-- A commit-list item as used by src/lib/github.ts (only `sha` is read). -/
structure Commit where
  sha : String
deriving DecidableEq, Repr

/-- `stats` of `octokit.repos.getCommit`: `additions`/`deletions` may each be
absent (the source checks both against `undefined`). -/
structure CommitStats where
  additions : Option Nat
  deletions : Option Nat
deriving DecidableEq, Repr

/-- `data` of `octokit.repos.getCommit` (only `stats` is read). -/
structure CommitDetail where
  stats : Option CommitStats
deriving DecidableEq, Repr

/-- Outcomes of the `executeWithRetry`-wrapped API calls made by
src/lib/github.ts during one aggregation for a fixed username.  Each field is
the value returned, or the error thrown, by the corresponding wrapped call
(a thrown `RateLimitError` and a rethrown API error are both `.error`). -/
structure Env where
  getUser : Except ApiError UserData
  listRepos : Except ApiError (List Repo)
  searchCommitsTotal : Except ApiError Nat
  listCommits : String → Except ApiError (List Commit)
  getCommit : String → String → Except ApiError CommitDetail
  searchPRs : Except ApiError Nat

/-- `fetchUserPullRequests` of src/lib/github.ts lines 177-196: the PR search
count, defaulting to 0 when the wrapped search fails. -/
def fetchUserPullRequests (env : Env) : Nat :=
  match env.searchPRs with
  | .ok n => n
  | .error _ => 0

/-- The inner commit loop of src/lib/github.ts lines 105-130, accumulating
`(totalAdditions, totalDeletions, commitsWithStats)`.  A failing `getCommit`
throws to the per-repository catch, which `continue`s to the next repository
while the sums accumulated so far persist (they are outer variables). -/
def processCommits (env : Env) (repoName : String) :
    List Commit → Nat × Nat × Nat → Nat × Nat × Nat
  | [], acc => acc
  | c :: cs, (ta, td, cw) =>
    match env.getCommit repoName c.sha with
    | .error _ => (ta, td, cw)
    | .ok detail =>
      match detail.stats with
      | some s =>
        match s.additions, s.deletions with
        | some a, some d =>
          if a > 0 || d > 0 then processCommits env repoName cs (ta + a, td + d, cw + 1)
          else processCommits env repoName cs (ta, td, cw)
        | _, _ => processCommits env repoName cs (ta, td, cw)
      | none => processCommits env repoName cs (ta, td, cw)

/-- The per-repository sampling loop of src/lib/github.ts lines 88-136 over
`repos.slice(0, 4)`: a failing `listCommits` skips the repository. -/
def sampleReposStats (env : Env) : List Repo → Nat × Nat × Nat → Nat × Nat × Nat
  | [], acc => acc
  | repo :: rest, acc =>
    let acc2 := match env.listCommits repo.name with
      | .error _ => acc
      | .ok commits => processCommits env repo.name commits acc
    sampleReposStats env rest acc2

/-- `stats` of the returned `GithubUser` record (src/lib/github.ts lines
158-167). -/
structure Stats where
  commitsPerDay : Nat
  commitsPerWeek : Nat
  weeklyCommits : Nat
  monthlyCommits : Nat
  totalCommits : Nat
  avgCommitSize : Nat
  contributionGraph : String
  topRepos : Nat
deriving DecidableEq, Repr

/-- The `GithubUser` record returned by src/lib/github.ts lines 152-168. -/
structure GithubUser where
  username : String
  avatarUrl : String
  commitCount : Nat
  pullRequests : Nat
  repoCount : Nat
  stats : Stats
deriving DecidableEq, Repr

/-- `fetchGithubUserData` of src/lib/github.ts lines 30-175.  The whole body
is wrapped in try/catch, so a failure of the profile fetch or the repository
fetch surfaces as the error branch (`Sum.inr` carries the thrown error that
the source converts to `{error: {message}}`); the commit search, commit
sampling and PR count degrade to defaults.  Note this variant performs no
username validation. -/
def fetchGithubUserData (env : Env) (username : String) : GithubUser ⊕ ApiError :=
  match env.getUser with
  | .error e => .inr e
  | .ok userData =>
    match env.listRepos with
    | .error e => .inr e
    | .ok repos =>
      let totalCommits := match env.searchCommitsTotal with
        | .ok d => d
        | .error _ => 0
      let sampled := sampleReposStats env (repos.take 4) (0, 0, 0)
      let avgCommitSize :=
        if sampled.2.2 > 0 then jsRoundDiv (sampled.1 + sampled.2.1) sampled.2.2 else 0
      let monthlyCommits := jsRoundDiv totalCommits 12
      let commitsPerDay := jsRoundDiv monthlyCommits 30
      let commitsPerWeek := jsRoundDiv monthlyCommits 4
      let pullRequests := fetchUserPullRequests env
      .inl
        { username := userData.login
          avatarUrl := userData.avatar_url
          commitCount := totalCommits
          pullRequests := pullRequests
          repoCount := repos.length
          stats :=
            { commitsPerDay := commitsPerDay
              commitsPerWeek := commitsPerWeek
              weeklyCommits := commitsPerWeek
              monthlyCommits := monthlyCommits
              totalCommits := totalCommits
              avgCommitSize := avgCommitSize
              contributionGraph := "https://ghchart.rshah.org/" ++ username
              topRepos := repos.length } }

end GithubLib

namespace GithubV2

/-- `data` of `octokit.users.getByUsername` as used by the detailed/efficient
aggregator variant (src/unnamed/part_002, second document). -/
structure UserData where
  avatar_url : String
  public_repos : Nat
deriving DecidableEq, Repr

/-- A repository as used by the detailed/efficient variant: `name`,
`owner.login` and `created_at` (modelled as a millisecond timestamp). -/
structure Repo where
  name : String
  owner : String
  created_at : Nat
deriving DecidableEq, Repr

/-- A commit as used by `detailedAnalysis`: the commit date
(`commit.author?.date || commit.committer?.date`), `none` when both are
absent (the source then builds an invalid `Date` whose comparisons are
false). -/
structure Commit where
  date : Option Nat
deriving DecidableEq, Repr

/-- The classified failure values produced by the detailed/efficient variant
(`GitHubError`, `UserNotFoundError`, `RateLimitError` of src/unnamed/part_002
lines 146-169). -/
inductive FetchError where
  | invalidFormat
  | userNotFound
  | rateLimited
  | apiError (status : Nat)
deriving DecidableEq, Repr

/-- Outcomes of the Octokit calls made by the detailed/efficient variant
during one aggregation for a fixed username.  `listCommitsPage repo page` is
the paged `repos.listCommits` call; `participation repo` is
`repos.getParticipationStats` (its `owner` weekly array); the three search
fields are the commit-search queries (total, last-30-days, last-7-days). -/
structure Env where
  getUser : Except ApiError UserData
  listRepos : Except ApiError (List Repo)
  listCommitsPage : String → Nat → Except Unit (List Commit)
  searchTotal : Except Unit Nat
  searchMonth : Except Unit Nat
  searchWeek : Except Unit Nat
  participation : String → Except Unit (List Nat)

/-- `stats` of the record returned by the detailed/efficient variant (no
`avgCommitSize`/`topRepos` fields in this variant). -/
structure Stats where
  commitsPerDay : Nat
  commitsPerWeek : Nat
  weeklyCommits : Nat
  monthlyCommits : Nat
  totalCommits : Nat
  contributionGraph : String
deriving DecidableEq, Repr

/-- The user record returned by the detailed/efficient variant. -/
structure GithubUser where
  username : String
  avatarUrl : String
  commitCount : Nat
  pullRequests : Nat
  repoCount : Nat
  stats : Stats
deriving DecidableEq, Repr

/-- The commit paging loop of `detailedAnalysis` (src/unnamed/part_002 lines
272-304): pages of 100 commits from `page = 1`, stopping on an error, an
empty page, or after page 5 (`if (page > 5)` after the increment).  Returns
the accumulated commits and the number of `listCommits` calls made.  `fuel`
is 5 at the entry point, enough for the page bound, so the fuel-exhausted
branch is unreachable. -/
def pageCommitsGo (env : Env) (repoName : String) :
    Nat → Nat → List Commit → List Commit × Nat
  | _, 0, acc => (acc, 0)
  | page, fuel + 1, acc =>
    match env.listCommitsPage repoName page with
    | .error _ => (acc, 1)
    | .ok [] => (acc, 1)
    | .ok commits =>
      if page + 1 > 5 then (acc ++ commits, 1)
      else
        let rest := pageCommitsGo env repoName (page + 1) fuel (acc ++ commits)
        (rest.1, rest.2 + 1)

/-- All commits gathered for one repository by `detailedAnalysis`, with the
number of network calls made. -/
def pageCommits (env : Env) (repoName : String) : List Commit × Nat :=
  pageCommitsGo env repoName 1 5 []

/-- The per-repository activity of `detailedAnalysis` (src/unnamed/part_002
lines 267-327): `(weekly, monthly, total)` commit counts bucketed by commit
date, plus the number of network calls. -/
def repoActivityOf (env : Env) (weekAgo monthAgo : Nat) (repo : Repo) :
    (Nat × Nat × Nat) × Nat :=
  let pc := pageCommits env repo.name
  let dateAtLeast := fun (threshold : Nat) (c : Commit) =>
    match c.date with
    | some d => threshold ≤ d
    | none => false
  (((pc.1.filter (dateAtLeast weekAgo)).length,
    (pc.1.filter (dateAtLeast monthAgo)).length,
    pc.1.length), pc.2)

/-- `detailedAnalysis` of src/unnamed/part_002 lines 250-357.  `weekAgo` and
`monthAgo` are the date thresholds the source derives from the wall clock
(`now - 7 days` and the calendar-month subtraction, which is not modelled
further).  Returns the user record and the number of network calls. -/
def detailedAnalysis (env : Env) (weekAgo monthAgo : Nat) (username : String)
    (userData : UserData) (repos : List Repo) : GithubUser × Nat :=
  let acts := repos.map (repoActivityOf env weekAgo monthAgo)
  let weeklyCommits := (acts.map (fun a => a.1.1)).sum
  let monthlyCommits := (acts.map (fun a => a.1.2.1)).sum
  let totalCommits := (acts.map (fun a => a.1.2.2)).sum
  let calls := (acts.map (fun a => a.2)).sum
  ({ username := username
     avatarUrl := userData.avatar_url
     commitCount := totalCommits
     pullRequests := userData.public_repos
     repoCount := repos.length
     stats :=
       { commitsPerDay := jsRoundDiv monthlyCommits 30
         commitsPerWeek := weeklyCommits
         weeklyCommits := weeklyCommits
         monthlyCommits := monthlyCommits
         totalCommits := totalCommits
         contributionGraph := "https://ghchart.rshah.org/" ++ username } }, calls)

/-- One sampled repository of the `efficientAnalysis` fallback
(src/unnamed/part_002 lines 415-457): from the participation `owner` array,
`weekly` is the last week's count (`slice(-1)[0] || 0`), `monthly` the sum of
the last four weeks (`slice(-4)`), and `total` the sum of the whole array or,
when that sum is zero (JavaScript `||`), the estimate
`Math.round(monthly * repoAgeInWeeks / 4)`.  A failing participation call
yields `(0, 0, 0)`.  Returns `(weekly, monthly, total)`. -/
def sampleRepoStats (env : Env) (now : Nat) (repo : Repo) : Nat × Nat × Nat :=
  match env.participation repo.name with
  | .error _ => (0, 0, 0)
  | .ok owner =>
    let weekly := (owner.getLast?).getD 0
    let monthly := (owner.drop (owner.length - 4)).sum
    let total0 := owner.sum
    let repoAgeInWeeks := natCeilDiv (now - repo.created_at) (7 * 24 * 60 * 60 * 1000)
    let total := if total0 = 0 then jsRoundDiv (monthly * repoAgeInWeeks) 4 else total0
    (weekly, monthly, total)

/-- The sampling fallback of `efficientAnalysis` (src/unnamed/part_002 lines
404-473).  `t0, m0, w0` are the values the three search queries had already
assigned before the failure (the source's `totalCommitCount`,
`monthlyCommits`, `weeklyCommits` variables, to which the sampled sums are
added).  When the sample is non-empty, all three accumulated counts are
extrapolated by `repos.length / sampleRepos.length`, rounded to nearest.
Returns `((total, monthly, weekly), networkCalls)`. -/
def efficientFallback (env : Env) (now : Nat) (repos : List Repo) (t0 m0 w0 : Nat) :
    (Nat × Nat × Nat) × Nat :=
  let sampleRepos := repos.take 10
  let sums := sampleRepos.map (sampleRepoStats env now)
  let weekly := w0 + (sums.map (fun s => s.1)).sum
  let monthly := m0 + (sums.map (fun s => s.2.1)).sum
  let total := t0 + (sums.map (fun s => s.2.2)).sum
  if sampleRepos.length = 0 then ((total, monthly, weekly), sampleRepos.length)
  else
    ((jsRoundDiv (total * repos.length) sampleRepos.length,
      jsRoundDiv (monthly * repos.length) sampleRepos.length,
      jsRoundDiv (weekly * repos.length) sampleRepos.length), sampleRepos.length)

/-- `efficientAnalysis` of src/unnamed/part_002 lines 360-495: the three
sequential commit-search queries; if one of them throws, the already
assigned counts are kept and the sampling fallback runs.  Returns the user
record and the number of network calls. -/
def efficientAnalysis (env : Env) (now : Nat) (username : String)
    (userData : UserData) (repos : List Repo) : GithubUser × Nat :=
  let tmw : (Nat × Nat × Nat) × Nat :=
    match env.searchTotal with
    | .error _ =>
      let fb := efficientFallback env now repos 0 0 0
      (fb.1, 1 + fb.2)
    | .ok t =>
      match env.searchMonth with
      | .error _ =>
        let fb := efficientFallback env now repos t 0 0
        (fb.1, 2 + fb.2)
      | .ok m =>
        match env.searchWeek with
        | .error _ =>
          let fb := efficientFallback env now repos t m 0
          (fb.1, 3 + fb.2)
        | .ok w => ((t, m, w), 3)
  ({ username := username
     avatarUrl := userData.avatar_url
     commitCount := tmw.1.1
     pullRequests := userData.public_repos
     repoCount := repos.length
     stats :=
       { commitsPerDay := jsRoundDiv tmw.1.2.1 30
         commitsPerWeek := tmw.1.2.2
         weeklyCommits := tmw.1.2.2
         monthlyCommits := tmw.1.2.1
         totalCommits := tmw.1.1
         contributionGraph := "https://ghchart.rshah.org/" ++ username } }, tmw.2)

/-- `fetchGithubUserData` of src/unnamed/part_002 lines 177-247 (the
detailed/efficient variant): validate the username (no network call on
failure), fetch the profile (fatal, with 404 / quota / generic
classification), fetch the repositories (degrading to the empty list on
failure), then branch on the repository count.  Returns the result and the
total number of network calls made.  No step after the profile fetch can
throw, so the outer catch of the source is unreachable. -/
def fetchGithubUserData (env : Env) (now weekAgo monthAgo : Nat) (username : String) :
    (GithubUser ⊕ FetchError) × Nat :=
  if username.isEmpty || !(validUsername username) then (.inr .invalidFormat, 0)
  else
    match env.getUser with
    | .error e =>
      if e.status == 404 then (.inr .userNotFound, 1)
      else if e.status == 403 && e.remaining == some "0" then (.inr .rateLimited, 1)
      else (.inr (.apiError e.status), 1)
    | .ok userData =>
      let repos := match env.listRepos with
        | .ok rs => rs
        | .error _ => []
      if repos.length ≤ 5 then
        let da := detailedAnalysis env weekAgo monthAgo username userData repos
        (.inl da.1, 2 + da.2)
      else
        let ea := efficientAnalysis env now username userData repos
        (.inl ea.1, 2 + ea.2)

end GithubV2

namespace Page

/-- The component state of src/app/page.tsx relevant to orchestration: the
`username` fields of the accepted `users` list and of the `failedUsers`
list, in order. -/
structure PageState where
  users : List String
  failedUsers : List String
deriving DecidableEq, Repr

/-- The observable outcome of one `handleAddUsers` invocation:
`fetched` is the list of usernames passed to `fetchGithubUserData`, in call
order; `succ` the `username` fields of the accepted records appended by
`setUsers`; `errs` the usernames appended to the failed list by
`setFailedUsers`; `success`/`errors` the returned tally. -/
structure AddOutcome where
  fetched : List String
  succ : List String
  errs : List String
  success : Nat
  errors : Nat
deriving DecidableEq, Repr

/-- `handleAddUsers` of src/app/page.tsx lines 20-125.  `snapshot` is the
render-time component state the handler's closure reads (React state
variables are constants within one handler invocation).  `fetch u` abstracts
`fetchGithubUserData u`: `some s` is a successful record whose `username`
field is `s`, `none` is an error result or a thrown error.  The input list is
filtered against the snapshot lists by exact string equality — the input
batch itself is not deduplicated — and an empty filtered list returns the
zero tally with no fetch.  Each surviving username is fetched sequentially
and partitioned into successes and failures, preserving order. -/
def handleAddUsers (fetch : String → Option String) (snapshot : PageState)
    (usernames : List String) : AddOutcome :=
  if usernames.isEmpty then ⟨[], [], [], 0, 0⟩
  else
    let uniqueUsernames := usernames.filter (fun u =>
      !(snapshot.users.contains u) && !(snapshot.failedUsers.contains u))
    if uniqueUsernames.isEmpty then ⟨[], [], [], 0, 0⟩
    else
      let succ := uniqueUsernames.filterMap fetch
      let errs := uniqueUsernames.filter (fun u => (fetch u).isNone)
      ⟨uniqueUsernames, succ, errs, succ.length, errs.length⟩

/-- Application of the queued `setUsers`/`setFailedUsers` functional updates
of one `handleAddUsers` invocation to a base state (the updater functions
append to whatever the latest state is when they are applied). -/
def applyAdd (base : PageState) (o : AddOutcome) : PageState :=
  ⟨base.users ++ o.succ, base.failedUsers ++ o.errs⟩

/-- `handleRetryUser` of src/app/page.tsx lines 128-131, under React event
semantics: `setFailedUsers(prev => prev.filter(...))` only queues a state
update, while the immediately following `handleAddUsers([username])` call is
the same-render closure and therefore still reads the render-time
`failedUsers` snapshot, in which the username is still present.  The final
state applies the queued removal and then the updates of the inner
`handleAddUsers` call.  Returns the inner call's outcome and the final
state. -/
def handleRetryUser (fetch : String → Option String) (st : PageState)
    (username : String) : AddOutcome × PageState :=
  let outcome := handleAddUsers fetch st [username]
  (outcome,
    applyAdd ⟨st.users, st.failedUsers.filter (fun u => u != username)⟩ outcome)

end Page

/-! ## Helper lemmas about the retry executor -/

/-- The initial cache lookup of an `executeWithRetry` call misses: either no
cache key is given, or the key is absent, or the entry found is expired. -/
def cacheMiss {V : Type} (cacheKey : Option String) (cache : Cache V) (now : Nat) : Prop :=
  ∀ k e, cacheKey = some k → cacheGet cache k = some e → e.expiresAt ≤ now

theorem retryLoopGo_allQuota {V : Type} (fn : Nat → ReqOutcome V) (e : ApiError)
    (hfn : ∀ k, fn k = .err e) (hq : isQuotaExhausted e = true) (maxRetries now : Nat) :
    ∀ budget retries delay, maxRetries + 1 - retries = budget → retries ≤ maxRetries →
      (retryLoopGo fn maxRetries now budget retries delay).result = .rateLimitError ∧
      (retryLoopGo fn maxRetries now budget retries delay).calls = maxRetries + 1 - retries := by
  intro budget
  induction budget with
  | zero => intro retries delay hb hle; omega
  | succ b ih =>
    intro retries delay hb hle
    by_cases hmax : maxRetries ≤ retries
    · have heq : retries = maxRetries := by omega
      subst heq
      simp [retryLoopGo, hfn, hq, hmax]
    · have h1 : maxRetries + 1 - (retries + 1) = b := by omega
      have h2 : retries + 1 ≤ maxRetries := by omega
      cases hr : e.reset with
      | none =>
        have hih := ih (retries + 1) (delay * 2) h1 h2
        simp [retryLoopGo, hfn, hq, hmax, hr, hih.1, hih.2]
        omega
      | some rt =>
        have hih := ih (retries + 1) delay h1 h2
        simp [retryLoopGo, hfn, hq, hmax, hr, hih.1, hih.2]
        omega

theorem retryLoopGo_allQuota_sleeps {V : Type} (fn : Nat → ReqOutcome V) (e : ApiError)
    (rt : Nat) (hfn : ∀ k, fn k = .err e) (hq : isQuotaExhausted e = true)
    (hr : e.reset = some rt) (maxRetries now : Nat) :
    ∀ budget retries delay, maxRetries + 1 - retries = budget → retries ≤ maxRetries →
      (retryLoopGo fn maxRetries now budget retries delay).sleeps =
        List.replicate (maxRetries - retries)
          (max ((rt : Int) * 1000 - (now : Int) + 1000) 1000) := by
  intro budget
  induction budget with
  | zero => intro retries delay hb hle; omega
  | succ b ih =>
    intro retries delay hb hle
    by_cases hmax : maxRetries ≤ retries
    · have heq : retries = maxRetries := by omega
      subst heq
      simp [retryLoopGo, hfn, hq, hmax]
    · have h1 : maxRetries + 1 - (retries + 1) = b := by omega
      have h2 : retries + 1 ≤ maxRetries := by omega
      have hih := ih (retries + 1) delay h1 h2
      have hrepl : maxRetries - retries = (maxRetries - (retries + 1)) + 1 := by omega
      simp [retryLoopGo, hfn, hq, hmax, hr, hih, hrepl, List.replicate_succ]

theorem retryLoop_first_error {V : Type} (fn : Nat → ReqOutcome V) (e : ApiError)
    (hfn : fn 0 = .err e) (hq : isQuotaExhausted e = false)
    (maxRetries now delay : Nat) :
    retryLoop fn maxRetries now 0 delay = ⟨.errThrown e, 1, []⟩ := by
  simp [retryLoop, retryLoopGo, hfn, hq]

/-- Under a missing or expired cache entry, `executeWithRetry` is the
no-cache-hit continuation `runFresh`. -/
theorem executeWithRetry_miss_eq {V : Type} (fn : Nat → ReqOutcome V)
    (cacheKey : Option String) (cacheDuration maxRetries initialDelay : Nat)
    (cache : Cache V) (now : Nat) (hmiss : cacheMiss cacheKey cache now) :
    executeWithRetry fn cacheKey cacheDuration maxRetries initialDelay cache now =
      runFresh fn cacheKey cacheDuration maxRetries initialDelay cache now := by
  revert hmiss
  unfold executeWithRetry
  cases cacheKey with
  | none => intro _; rfl
  | some k =>
    intro hmiss
    cases hget : cacheGet cache k with
    | none => simp only [hget]
    | some entry =>
      have hexp : entry.expiresAt ≤ now := hmiss k entry rfl hget
      have hnot : ¬ now < entry.expiresAt := by omega
      simp only [hget, if_neg hnot]

theorem runFresh_result {V : Type} (fn : Nat → ReqOutcome V) (cacheKey : Option String)
    (cacheDuration maxRetries initialDelay : Nat) (cache : Cache V) (now : Nat) :
    (runFresh fn cacheKey cacheDuration maxRetries initialDelay cache now).result =
      (retryLoop fn maxRetries now 0 initialDelay).result := by
  unfold runFresh
  cases h : (retryLoop fn maxRetries now 0 initialDelay).result <;>
    cases cacheKey <;> simp [h]

theorem runFresh_calls {V : Type} (fn : Nat → ReqOutcome V) (cacheKey : Option String)
    (cacheDuration maxRetries initialDelay : Nat) (cache : Cache V) (now : Nat) :
    (runFresh fn cacheKey cacheDuration maxRetries initialDelay cache now).calls =
      (retryLoop fn maxRetries now 0 initialDelay).calls := by
  unfold runFresh
  cases h : (retryLoop fn maxRetries now 0 initialDelay).result <;>
    cases cacheKey <;> simp [h]

theorem runFresh_sleeps {V : Type} (fn : Nat → ReqOutcome V) (cacheKey : Option String)
    (cacheDuration maxRetries initialDelay : Nat) (cache : Cache V) (now : Nat) :
    (runFresh fn cacheKey cacheDuration maxRetries initialDelay cache now).sleeps =
      (retryLoop fn maxRetries now 0 initialDelay).sleeps := by
  unfold runFresh
  cases h : (retryLoop fn maxRetries now 0 initialDelay).result <;>
    cases cacheKey <;> simp [h]

theorem runFresh_cache_of_ne_ok {V : Type} (fn : Nat → ReqOutcome V)
    (cacheKey : Option String) (cacheDuration maxRetries initialDelay : Nat)
    (cache : Cache V) (now : Nat)
    (h : ∀ v, (retryLoop fn maxRetries now 0 initialDelay).result ≠ .ok v) :
    (runFresh fn cacheKey cacheDuration maxRetries initialDelay cache now).cache =
      cache := by
  unfold runFresh
  cases hres : (retryLoop fn maxRetries now 0 initialDelay).result with
  | ok v => exact absurd hres (h v)
  | rateLimitError => cases cacheKey <;> simp [hres]
  | errThrown e => cases cacheKey <;> simp [hres]

/-! ## C1, C4, C5, C9: the retry / cache / batch executor -/

/-- C1: if the initial cache lookup misses then (a) for a request function
that fails quota-exhausted on every invocation, `executeWithRetry` with
parameter `maxRetries` invokes it exactly `maxRetries + 1` times, fails
with `RateLimitError`, and leaves the cache unchanged; and (b) for a request
function whose (first) failure is not quota-exhausted, it invokes it exactly
once, rethrows that error immediately and caches nothing. -/
theorem executeWithRetry_quota_retry_bound {V : Type} (fn fn2 : Nat → ReqOutcome V)
    (e e2 : ApiError) (cacheKey : Option String)
    (cacheDuration maxRetries initialDelay : Nat) (cache : Cache V) (now : Nat)
    (hmiss : cacheMiss cacheKey cache now) :
    ((∀ k, fn k = .err e) → isQuotaExhausted e = true →
      (executeWithRetry fn cacheKey cacheDuration maxRetries initialDelay cache now).result
          = .rateLimitError ∧
      (executeWithRetry fn cacheKey cacheDuration maxRetries initialDelay cache now).calls
          = maxRetries + 1 ∧
      (executeWithRetry fn cacheKey cacheDuration maxRetries initialDelay cache now).cache
          = cache) ∧
    (fn2 0 = .err e2 → isQuotaExhausted e2 = false →
      (executeWithRetry fn2 cacheKey cacheDuration maxRetries initialDelay cache now).result
          = .errThrown e2 ∧
      (executeWithRetry fn2 cacheKey cacheDuration maxRetries initialDelay cache now).calls
          = 1 ∧
      (executeWithRetry fn2 cacheKey cacheDuration maxRetries initialDelay cache now).cache
          = cache) := by
  constructor
  · intro hfn hq
    have hloop := retryLoopGo_allQuota fn e hfn hq maxRetries now (maxRetries + 1) 0
      initialDelay (by omega) (by omega)
    have hres : (retryLoop fn maxRetries now 0 initialDelay).result = .rateLimitError := by
      simpa [retryLoop] using hloop.1
    have hcalls : (retryLoop fn maxRetries now 0 initialDelay).calls = maxRetries + 1 := by
      simpa [retryLoop] using hloop.2
    rw [executeWithRetry_miss_eq fn cacheKey cacheDuration maxRetries initialDelay cache
      now hmiss]
    refine ⟨?_, ?_, ?_⟩
    · rw [runFresh_result]; exact hres
    · rw [runFresh_calls]; exact hcalls
    · exact runFresh_cache_of_ne_ok fn cacheKey cacheDuration maxRetries initialDelay
        cache now (by intro v hv; rw [hres] at hv; exact RetryResult.noConfusion hv)
  · intro hfn2 hq2
    have hloop := retryLoop_first_error fn2 e2 hfn2 hq2 maxRetries now initialDelay
    rw [executeWithRetry_miss_eq fn2 cacheKey cacheDuration maxRetries initialDelay cache
      now hmiss]
    refine ⟨?_, ?_, ?_⟩
    · rw [runFresh_result, hloop]
    · rw [runFresh_calls, hloop]
    · exact runFresh_cache_of_ne_ok fn2 cacheKey cacheDuration maxRetries initialDelay
        cache now (by intro v hv; rw [hloop] at hv; exact RetryResult.noConfusion hv)

/-- Witness for C1 at a concrete input: a request function that always fails
quota-exhausted is invoked 4 times under `maxRetries = 3` and ends in
`RateLimitError`; one that fails with a plain 500 is invoked once and its
error is rethrown. -/
theorem executeWithRetry_quota_retry_bound_witness :
    (executeWithRetry (fun _ => ReqOutcome.err ⟨403, some "0", some 5⟩ : Nat → ReqOutcome Nat)
        none 1000 3 1000 [] 0).result = .rateLimitError ∧
    (executeWithRetry (fun _ => ReqOutcome.err ⟨403, some "0", some 5⟩ : Nat → ReqOutcome Nat)
        none 1000 3 1000 [] 0).calls = 3 + 1 ∧
    (executeWithRetry (fun _ => ReqOutcome.err ⟨500, none, none⟩ : Nat → ReqOutcome Nat)
        none 1000 3 1000 [] 0).result = .errThrown ⟨500, none, none⟩ ∧
    (executeWithRetry (fun _ => ReqOutcome.err ⟨500, none, none⟩ : Nat → ReqOutcome Nat)
        none 1000 3 1000 [] 0).calls = 1 := by
  have h := executeWithRetry_quota_retry_bound
    (fun _ => ReqOutcome.err ⟨403, some "0", some 5⟩ : Nat → ReqOutcome Nat)
    (fun _ => ReqOutcome.err ⟨500, none, none⟩ : Nat → ReqOutcome Nat)
    ⟨403, some "0", some 5⟩ ⟨500, none, none⟩ none 1000 3 1000 [] 0
    (by intro k e hk; simp at hk)
  have h1 := h.1 (fun _ => rfl) (by decide)
  have h2 := h.2 rfl (by decide)
  exact ⟨h1.1, h1.2.1, h2.1, h2.2.1⟩

/-- C9: when the initial cache lookup misses and the request function always
fails quota-exhausted with a server-supplied reset timestamp `rt` (seconds),
every sleep `executeWithRetry` performs before a retry equals
`max(rt * 1000 - now + 1000, 1000)` milliseconds — there are exactly
`maxRetries` of them — and is therefore at least 1000 ms, even when the
reset time is already in the past. -/
theorem executeWithRetry_reset_wait_floor {V : Type} (fn : Nat → ReqOutcome V)
    (e : ApiError) (rt : Nat) (cacheKey : Option String)
    (cacheDuration maxRetries initialDelay : Nat) (cache : Cache V) (now : Nat)
    (hmiss : cacheMiss cacheKey cache now) (hfn : ∀ k, fn k = .err e)
    (hq : isQuotaExhausted e = true) (hr : e.reset = some rt) :
    (executeWithRetry fn cacheKey cacheDuration maxRetries initialDelay cache now).sleeps
        = List.replicate maxRetries (max ((rt : Int) * 1000 - (now : Int) + 1000) 1000) ∧
    ∀ s ∈ (executeWithRetry fn cacheKey cacheDuration maxRetries initialDelay
        cache now).sleeps, (1000 : Int) ≤ s := by
  have hloopS := retryLoopGo_allQuota_sleeps fn e rt hfn hq hr maxRetries now
    (maxRetries + 1) 0 initialDelay (by omega) (by omega)
  have hsleeps : (retryLoop fn maxRetries now 0 initialDelay).sleeps =
      List.replicate maxRetries (max ((rt : Int) * 1000 - (now : Int) + 1000) 1000) := by
    simpa [retryLoop] using hloopS
  have hmain : (executeWithRetry fn cacheKey cacheDuration maxRetries initialDelay
      cache now).sleeps =
      List.replicate maxRetries (max ((rt : Int) * 1000 - (now : Int) + 1000) 1000) := by
    rw [executeWithRetry_miss_eq fn cacheKey cacheDuration maxRetries initialDelay cache
      now hmiss, runFresh_sleeps]
    exact hsleeps
  refine ⟨hmain, ?_⟩
  intro s hs
  rw [hmain] at hs
  have heq := List.eq_of_mem_replicate hs
  subst heq
  exact le_max_right _ _

/-- Witness for C9 at a concrete input: reset timestamp 5 s with `now = 0`
gives three sleeps of `max(5*1000 - 0 + 1000, 1000) = 6000` ms; and with a
reset timestamp already in the past (`rt = 0`, `now = 50000`) the sleep is
clamped to 1000 ms. -/
theorem executeWithRetry_reset_wait_floor_witness :
    (executeWithRetry (fun _ => ReqOutcome.err ⟨403, some "0", some 5⟩ : Nat → ReqOutcome Nat)
        none 1000 3 1000 [] 0).sleeps
      = List.replicate 3 (max ((5 : Int) * 1000 - (0 : Int) + 1000) 1000) ∧
    (executeWithRetry (fun _ => ReqOutcome.err ⟨403, some "0", some 0⟩ : Nat → ReqOutcome Nat)
        none 1000 2 1000 [] 50000).sleeps
      = List.replicate 2 (max ((0 : Int) * 1000 - (50000 : Int) + 1000) 1000) ∧
    (∀ s ∈ (executeWithRetry
        (fun _ => ReqOutcome.err ⟨403, some "0", some 0⟩ : Nat → ReqOutcome Nat)
        none 1000 2 1000 [] 50000).sleeps, (1000 : Int) ≤ s) := by
  have h1 := executeWithRetry_reset_wait_floor
    (fun _ => ReqOutcome.err ⟨403, some "0", some 5⟩ : Nat → ReqOutcome Nat)
    ⟨403, some "0", some 5⟩ 5 none 1000 3 1000 [] 0
    (by intro k e hk; simp at hk) (fun _ => rfl) (by decide) rfl
  have h2 := executeWithRetry_reset_wait_floor
    (fun _ => ReqOutcome.err ⟨403, some "0", some 0⟩ : Nat → ReqOutcome Nat)
    ⟨403, some "0", some 0⟩ 0 none 1000 2 1000 [] 50000
    (by intro k e hk; simp at hk) (fun _ => rfl) (by decide) rfl
  exact ⟨h1.1, h2.1, h2.2⟩

/-- C4: cache idempotence of `executeWithRetry`.  (a) A call on a missing or
expired key whose request succeeds with `v` returns `v` after one invocation
and writes the entry `⟨v, now1, now1 + cacheDuration⟩`.  (b) Any later call
with the same key made while `now2 < expiresAt` of that entry returns the
identical value, invokes its request function zero times and leaves the
cache untouched.  (c) An entry for which `now < expiresAt` fails to hold is
treated as absent: the call behaves (in result and number of invocations)
exactly as with an empty cache. -/
theorem executeWithRetry_cache_idempotent {V : Type} (fn fn2 : Nat → ReqOutcome V)
    (v : V) (k : String) (cacheDuration cacheDuration2 maxRetries maxRetries2
    initialDelay initialDelay2 : Nat) (cache : Cache V) (now1 now2 : Nat)
    (hmiss : cacheMiss (some k) cache now1) (hok : fn 0 = .ok v) :
    executeWithRetry fn (some k) cacheDuration maxRetries initialDelay cache now1 =
      ⟨.ok v, cacheSet cache k ⟨v, now1, now1 + cacheDuration⟩, 1, []⟩ ∧
    (now2 < now1 + cacheDuration →
      executeWithRetry fn2 (some k) cacheDuration2 maxRetries2 initialDelay2
          (cacheSet cache k ⟨v, now1, now1 + cacheDuration⟩) now2 =
        ⟨.ok v, cacheSet cache k ⟨v, now1, now1 + cacheDuration⟩, 0, []⟩) ∧
    (∀ (cache2 : Cache V) (entry : CacheEntry V) (now : Nat),
      cacheGet cache2 k = some entry → entry.expiresAt ≤ now →
      (executeWithRetry fn2 (some k) cacheDuration2 maxRetries2 initialDelay2
          cache2 now).result =
        (executeWithRetry fn2 (some k) cacheDuration2 maxRetries2 initialDelay2
          [] now).result ∧
      (executeWithRetry fn2 (some k) cacheDuration2 maxRetries2 initialDelay2
          cache2 now).calls =
        (executeWithRetry fn2 (some k) cacheDuration2 maxRetries2 initialDelay2
          [] now).calls) := by
  have hloop : retryLoop fn maxRetries now1 0 initialDelay = ⟨.ok v, 1, []⟩ := by
    simp [retryLoop, retryLoopGo, hok]
  refine ⟨?_, ?_, ?_⟩
  · rw [executeWithRetry_miss_eq fn (some k) cacheDuration maxRetries initialDelay cache
      now1 hmiss]
    simp [runFresh, hloop]
  · intro hlive
    have hgetset : cacheGet (cacheSet cache k ⟨v, now1, now1 + cacheDuration⟩) k =
        some ⟨v, now1, now1 + cacheDuration⟩ := by
      simp [cacheGet, cacheSet]
    unfold executeWithRetry
    simp [hgetset, hlive]
  · intro cache2 entry now hget hexp
    have hmiss2 : cacheMiss (some k) cache2 now := by
      intro k2 e2 hk2 hget2
      simp only [Option.some.injEq] at hk2
      subst hk2
      rw [hget] at hget2
      simp only [Option.some.injEq] at hget2
      subst hget2
      exact hexp
    have hmissNil : cacheMiss (some k) ([] : Cache V) now := by
      intro k2 e2 _ hget2
      simp [cacheGet] at hget2
    rw [executeWithRetry_miss_eq fn2 (some k) cacheDuration2 maxRetries2 initialDelay2
      cache2 now hmiss2]
    rw [executeWithRetry_miss_eq fn2 (some k) cacheDuration2 maxRetries2 initialDelay2
      [] now hmissNil]
    rw [runFresh_result, runFresh_result, runFresh_calls, runFresh_calls]
    exact ⟨rfl, rfl⟩

/-- Witness for C4 at a concrete input: a first call at time 100 with TTL 60
writes `⟨7, 100, 160⟩`; a second call at time 159 (before expiry) returns 7
from the cache with zero invocations; at time 160 the entry behaves as
absent. -/
theorem executeWithRetry_cache_idempotent_witness :
    executeWithRetry (fun _ => ReqOutcome.ok 7 : Nat → ReqOutcome Nat) (some "k")
        60 3 1000 [] 100 = ⟨.ok 7, cacheSet [] "k" ⟨7, 100, 160⟩, 1, []⟩ ∧
    executeWithRetry (fun _ => ReqOutcome.err ⟨500, none, none⟩ : Nat → ReqOutcome Nat)
        (some "k") 60 3 1000 (cacheSet [] "k" ⟨7, 100, 160⟩) 159 =
      ⟨.ok 7, cacheSet [] "k" ⟨7, 100, 160⟩, 0, []⟩ ∧
    (executeWithRetry (fun _ => ReqOutcome.err ⟨500, none, none⟩ : Nat → ReqOutcome Nat)
        (some "k") 60 3 1000 (cacheSet [] "k" ⟨7, 100, 160⟩) 160).result =
      (executeWithRetry (fun _ => ReqOutcome.err ⟨500, none, none⟩ : Nat → ReqOutcome Nat)
        (some "k") 60 3 1000 [] 160).result := by
  have h := executeWithRetry_cache_idempotent
    (fun _ => ReqOutcome.ok 7 : Nat → ReqOutcome Nat)
    (fun _ => ReqOutcome.err ⟨500, none, none⟩ : Nat → ReqOutcome Nat)
    7 "k" 60 60 3 3 1000 1000 [] 100 159
    (by intro k2 e2 _ hget2; simp [cacheGet] at hget2) rfl
  refine ⟨h.1, h.2.1 (by omega), ?_⟩
  exact (h.2.2 (cacheSet [] "k" ⟨7, 100, 160⟩) ⟨7, 100, 160⟩ 160 (by decide) (by decide)).1

theorem executeInBatchesGo_results {V : Type} (now b : Nat) :
    ∀ (fuel : Nat) (reqs : List (Nat → ReqOutcome V)), reqs.length ≤ fuel →
      (executeInBatchesGo now (b + 1) fuel reqs).1 =
        reqs.map (fun fn => execDefault fn now) := by
  intro fuel
  induction fuel with
  | zero =>
    intro reqs h
    cases reqs with
    | nil => rfl
    | cons r rs => simp at h
  | succ f ih =>
    intro reqs h
    cases reqs with
    | nil => rfl
    | cons r rs =>
      have hrest : ((r :: rs).drop (b + 1)).length ≤ f := by
        simp only [List.length_drop, List.length_cons] at *
        omega
      simp only [executeInBatchesGo]
      rw [ih _ hrest, ← List.map_append, List.take_append_drop]

theorem executeInBatchesGo_pauses {V : Type} (now b : Nat) :
    ∀ (fuel : Nat) (reqs : List (Nat → ReqOutcome V)), reqs.length ≤ fuel →
      (executeInBatchesGo now (b + 1) fuel reqs).2 =
        List.replicate ((reqs.length + b) / (b + 1) - 1) 1000 := by
  intro fuel
  induction fuel with
  | zero =>
    intro reqs h
    cases reqs with
    | nil =>
      have hd : b / (b + 1) = 0 := Nat.div_eq_of_lt (by omega)
      simp [executeInBatchesGo, hd]
    | cons r rs => simp at h
  | succ f ih =>
    intro reqs h
    cases reqs with
    | nil =>
      have hd : b / (b + 1) = 0 := Nat.div_eq_of_lt (by omega)
      simp [executeInBatchesGo, hd]
    | cons r rs =>
      have hlen : (r :: rs).length = rs.length + 1 := by simp
      have hrestlen : ((r :: rs).drop (b + 1)).length = rs.length - b := by
        simp only [List.length_drop, List.length_cons]
        omega
      have hrest : ((r :: rs).drop (b + 1)).length ≤ f := by
        simp only [List.length_drop, List.length_cons] at *
        omega
      simp only [executeInBatchesGo]
      rw [ih _ hrest, hrestlen]
      by_cases hsmall : rs.length ≤ b
      · have hempty : (r :: rs).drop (b + 1) = [] := by
          apply List.eq_nil_of_length_eq_zero
          omega
        have hd1 : (rs.length + 1 + b) / (b + 1) = 1 := by
          apply Nat.div_eq_of_lt_le
          · omega
          · omega
        have hd0 : (rs.length - b + b) / (b + 1) = 0 := Nat.div_eq_of_lt (by omega)
        simp [hempty, hd0, hd1, hlen]
      · have hnonempty : ¬ ((r :: rs).drop (b + 1)).isEmpty = true := by
          rw [List.isEmpty_iff]
          intro hnil
          have := congrArg List.length hnil
          simp only [List.length_drop, List.length_cons, List.length_nil] at this
          omega
        have harith : rs.length - b + b = rs.length := by omega
        have hstep : (rs.length + 1 + b) / (b + 1) = rs.length / (b + 1) + 1 := by
          have : rs.length + 1 + b = rs.length + (b + 1) := by omega
          rw [this, Nat.add_div_right _ (by omega)]
        have hpos : 1 ≤ rs.length / (b + 1) := by
          rw [Nat.one_le_div_iff (by omega)]
          omega
        rw [if_neg hnonempty, harith]
        simp only [List.length_cons]
        rw [hstep]
        rw [show rs.length / (b + 1) + 1 - 1 = (rs.length / (b + 1) - 1) + 1 by omega]
        rw [List.replicate_succ]
        rfl

/-- C5: for every request list and every positive `batchSize`,
`executeInBatches` settles every request through the default-parameter
retry executor and returns the outcomes in input order — position `i` of the
output is the outcome of input `i`, one outcome per input, a failure never
cancelling its siblings — and sleeps exactly 1000 ms between consecutive
groups (one fewer pause than the number of `batchSize`-groups). -/
theorem executeInBatches_order_preserving {V : Type}
    (reqs : List (Nat → ReqOutcome V)) (batchSize now : Nat) (hbs : 0 < batchSize) :
    (executeInBatches reqs batchSize now).1 =
      reqs.map (fun fn => execDefault fn now) ∧
    (∀ i : Nat, ((executeInBatches reqs batchSize now).1)[i]? =
      (reqs[i]?).map (fun fn => execDefault fn now)) ∧
    (executeInBatches reqs batchSize now).2 =
      List.replicate ((reqs.length + (batchSize - 1)) / batchSize - 1) 1000 := by
  cases batchSize with
  | zero => omega
  | succ b =>
    have h1 := executeInBatchesGo_results (V := V) now b reqs.length reqs (le_refl _)
    have h2 := executeInBatchesGo_pauses (V := V) now b reqs.length reqs (le_refl _)
    refine ⟨h1, ?_, ?_⟩
    · intro i
      show (executeInBatchesGo now (b + 1) reqs.length reqs).1[i]? = _
      rw [h1, List.getElem?_map]
    · show (executeInBatchesGo now (b + 1) reqs.length reqs).2 = _
      rw [h2]
      norm_num

/-- Witness for C5 at a concrete input: 7 requests with `batchSize = 5` are
returned in input order (checked at index 6) with a single 1000 ms pause. -/
theorem executeInBatches_order_preserving_witness :
    0 < 5 ∧
    (executeInBatches ((List.range 7).map (fun i _ => ReqOutcome.ok i)) 5 0).1 =
      ((List.range 7).map (fun i (_ : Nat) => ReqOutcome.ok i)).map
        (fun fn => execDefault fn 0) ∧
    ((executeInBatches ((List.range 7).map (fun i _ => ReqOutcome.ok i)) 5 0).1)[6]? =
      ((((List.range 7).map (fun i (_ : Nat) => ReqOutcome.ok i)))[6]?).map
        (fun fn => execDefault fn 0) ∧
    (executeInBatches ((List.range 7).map (fun i _ => ReqOutcome.ok i)) 5 0).2 =
      List.replicate ((((List.range 7).map (fun i (_ : Nat) => ReqOutcome.ok i)).length
        + (5 - 1)) / 5 - 1) 1000 := by
  have h := executeInBatches_order_preserving
    ((List.range 7).map (fun i (_ : Nat) => ReqOutcome.ok i)) 5 0 (by decide)
  exact ⟨by decide, h.1, h.2.1 6, h.2.2⟩

/-! ## C2, C6, C7, C8: the user-stats aggregators -/

theorem validUsername_isEmpty_false {u : String} (h : validUsername u = true) :
    u.isEmpty = false := by
  cases h2 : u.isEmpty
  · rfl
  · exfalso
    have heq : u = "" := (String.isEmpty_iff u).mp h2
    subst heq
    exact absurd h (by decide)

/-- A concrete detailed/efficient-variant environment in which every call
succeeds, used by witnesses. -/
def envAllOk : GithubV2.Env :=
  { getUser := .ok ⟨"a.png", 3⟩
    listRepos := .ok []
    listCommitsPage := fun _ _ => .ok []
    searchTotal := .ok 12
    searchMonth := .ok 6
    searchWeek := .ok 2
    participation := fun _ => .ok [] }

/-- C2: for every input failing the GitHub handle grammar, the validating
`fetchGithubUserData` (src/unnamed/part_002) returns the validation failure
and performs zero network calls — for every environment the result is the
same pair with call count 0. -/
theorem fetchGithubUserData_invalid_no_network (env : GithubV2.Env)
    (now weekAgo monthAgo : Nat) (username : String)
    (hinv : validUsername username = false) :
    GithubV2.fetchGithubUserData env now weekAgo monthAgo username =
      (Sum.inr GithubV2.FetchError.invalidFormat, 0) := by
  unfold GithubV2.fetchGithubUserData
  simp [hinv]

/-- Witness for C2 at concrete inputs: `"-alice"` (leading hyphen) and
`"al_ice"` (underscore) fail the grammar and are rejected with zero calls. -/
theorem fetchGithubUserData_invalid_no_network_witness :
    validUsername "-alice" = false ∧
    GithubV2.fetchGithubUserData envAllOk 0 0 0 "-alice" =
      (Sum.inr GithubV2.FetchError.invalidFormat, 0) ∧
    GithubV2.fetchGithubUserData envAllOk 0 0 0 "al_ice" =
      (Sum.inr GithubV2.FetchError.invalidFormat, 0) := by
  exact ⟨by decide,
    fetchGithubUserData_invalid_no_network envAllOk 0 0 0 "-alice" (by decide),
    fetchGithubUserData_invalid_no_network envAllOk 0 0 0 "al_ice" (by decide)⟩

/-- C6: the aggregation failure policy.  (a) Validation failure is fatal;
(b) a profile-fetch failure is fatal (classified failure); (c) a repository
-list failure degrades to the empty repository list (the aggregation result
is the same as with an empty list fetched successfully); (d) once validation
and the profile fetch succeed, every environment — arbitrary failures of
commit paging, commit search and participation sampling — yields a success
record, so no later step is fatal; (e) in the src/lib/github.ts variant, a
failing pull-request search degrades to 0, and (f) with profile and
repository list fetched, arbitrary failures of commit search, commit listing,
commit detail and PR search still yield a success record. -/
theorem aggregation_failure_policy :
    (∀ (env : GithubV2.Env) (now weekAgo monthAgo : Nat) (u : String),
      validUsername u = false →
      (GithubV2.fetchGithubUserData env now weekAgo monthAgo u).1 =
        Sum.inr GithubV2.FetchError.invalidFormat) ∧
    (∀ (env : GithubV2.Env) (now weekAgo monthAgo : Nat) (u : String) (e : ApiError),
      validUsername u = true → env.getUser = .error e →
      ∃ fe, (GithubV2.fetchGithubUserData env now weekAgo monthAgo u).1 = Sum.inr fe) ∧
    (∀ (env : GithubV2.Env) (now weekAgo monthAgo : Nat) (u : String) (e : ApiError),
      env.listRepos = .error e →
      GithubV2.fetchGithubUserData env now weekAgo monthAgo u =
        GithubV2.fetchGithubUserData { env with listRepos := .ok [] }
          now weekAgo monthAgo u) ∧
    (∀ (env : GithubV2.Env) (now weekAgo monthAgo : Nat) (u : String)
        (ud : GithubV2.UserData),
      validUsername u = true → env.getUser = .ok ud →
      ∃ r c, GithubV2.fetchGithubUserData env now weekAgo monthAgo u = (Sum.inl r, c)) ∧
    (∀ (env : GithubLib.Env) (e : ApiError),
      env.searchPRs = .error e → GithubLib.fetchUserPullRequests env = 0) ∧
    (∀ (env : GithubLib.Env) (u : String) (ud : GithubLib.UserData)
        (rs : List GithubLib.Repo),
      env.getUser = .ok ud → env.listRepos = .ok rs →
      ∃ r, GithubLib.fetchGithubUserData env u = Sum.inl r) := by
  refine ⟨?_, ?_, ?_, ?_, ?_, ?_⟩
  · intro env now weekAgo monthAgo u hinv
    unfold GithubV2.fetchGithubUserData
    simp [hinv]
  · intro env now weekAgo monthAgo u e hval hget
    unfold GithubV2.fetchGithubUserData
    simp [validUsername_isEmpty_false hval, hval, hget]
    split
    · exact ⟨_, rfl⟩
    · split <;> exact ⟨_, rfl⟩
  · intro env now weekAgo monthAgo u e hrepo
    unfold GithubV2.fetchGithubUserData
    simp only [hrepo]
    rfl
  · intro env now weekAgo monthAgo u ud hval hget
    unfold GithubV2.fetchGithubUserData
    simp [validUsername_isEmpty_false hval, hval, hget]
    cases hrep : env.listRepos with
    | error e2 => simp [hrep]
    | ok rs =>
      simp [hrep]
      split <;> exact ⟨_, _, rfl⟩
  · intro env e h
    unfold GithubLib.fetchUserPullRequests
    simp [h]
  · intro env u ud rs hu hr
    unfold GithubLib.fetchGithubUserData
    simp [hu, hr]

/-- A concrete src/lib/github.ts environment in which the profile and
repository fetches succeed but commit search, commit listing, commit detail
and PR search all fail, used by witnesses. -/
def libEnvDegraded : GithubLib.Env :=
  { getUser := .ok ⟨"alice", "a.png"⟩
    listRepos := .ok [⟨"repo1"⟩]
    searchCommitsTotal := .error ⟨500, none, none⟩
    listCommits := fun _ => .error ⟨500, none, none⟩
    getCommit := fun _ _ => .error ⟨500, none, none⟩
    searchPRs := .error ⟨500, none, none⟩ }

/-- Witness for C6 at concrete inputs, one per clause of the policy. -/
theorem aggregation_failure_policy_witness :
    (GithubV2.fetchGithubUserData envAllOk 0 0 0 "bad_name").1 =
      Sum.inr GithubV2.FetchError.invalidFormat ∧
    (∃ fe, (GithubV2.fetchGithubUserData
      { envAllOk with getUser := .error ⟨404, none, none⟩ } 0 0 0 "alice").1 =
        Sum.inr fe) ∧
    GithubV2.fetchGithubUserData
        { envAllOk with listRepos := .error ⟨500, none, none⟩ } 0 0 0 "alice" =
      GithubV2.fetchGithubUserData
        { { envAllOk with listRepos := .error ⟨500, none, none⟩ }
          with listRepos := .ok [] } 0 0 0 "alice" ∧
    (∃ r c, GithubV2.fetchGithubUserData envAllOk 0 0 0 "alice" = (Sum.inl r, c)) ∧
    GithubLib.fetchUserPullRequests libEnvDegraded = 0 ∧
    (∃ r, GithubLib.fetchGithubUserData libEnvDegraded "alice" = Sum.inl r) := by
  refine ⟨?_, ?_, ?_, ?_, ?_, ?_⟩
  · exact aggregation_failure_policy.1 envAllOk 0 0 0 "bad_name" (by decide)
  · exact aggregation_failure_policy.2.1
      { envAllOk with getUser := .error ⟨404, none, none⟩ } 0 0 0 "alice"
      ⟨404, none, none⟩ (by decide) rfl
  · exact aggregation_failure_policy.2.2.1
      { envAllOk with listRepos := .error ⟨500, none, none⟩ } 0 0 0 "alice"
      ⟨500, none, none⟩ rfl
  · exact aggregation_failure_policy.2.2.2.1 envAllOk 0 0 0 "alice" ⟨"a.png", 3⟩
      (by decide) rfl
  · exact aggregation_failure_policy.2.2.2.2.1 libEnvDegraded ⟨500, none, none⟩ rfl
  · exact aggregation_failure_policy.2.2.2.2.2 libEnvDegraded "alice" ⟨"alice", "a.png"⟩
      [⟨"repo1"⟩] rfl rfl

/-- The property C7 asserts of a successful aggregation result: every numeric
field of the statistics record is a non-negative integer (the fields are
naturals in the model because the remote API reports counts; the divisions
`jsRoundDiv` stay integral and non-negative). -/
def NonnegFields (r : GithubLib.GithubUser) : Prop :=
  0 ≤ r.commitCount ∧ 0 ≤ r.pullRequests ∧ 0 ≤ r.repoCount ∧
  0 ≤ r.stats.commitsPerDay ∧ 0 ≤ r.stats.commitsPerWeek ∧
  0 ≤ r.stats.weeklyCommits ∧ 0 ≤ r.stats.monthlyCommits ∧
  0 ≤ r.stats.totalCommits ∧ 0 ≤ r.stats.avgCommitSize ∧ 0 ≤ r.stats.topRepos

/-- C7: for every valid handle and every environment — any combination of
call outcomes — `fetchGithubUserData` of src/lib/github.ts evaluates to
either a statistics record all of whose numeric fields are non-negative
integers, or a classified failure value; the model is a total function, so
no input makes it throw. -/
theorem fetchGithubUserData_total_nonneg (env : GithubLib.Env) (u : String)
    (_hval : validUsername u = true) :
    (∃ r, GithubLib.fetchGithubUserData env u = Sum.inl r ∧ NonnegFields r) ∨
    (∃ e, GithubLib.fetchGithubUserData env u = Sum.inr e) := by
  unfold GithubLib.fetchGithubUserData
  cases hu : env.getUser with
  | error e => right; exact ⟨e, rfl⟩
  | ok ud =>
    cases hr : env.listRepos with
    | error e => right; exact ⟨e, rfl⟩
    | ok rs =>
      left
      refine ⟨_, rfl, ?_⟩
      unfold NonnegFields
      refine ⟨Nat.zero_le _, Nat.zero_le _, Nat.zero_le _, Nat.zero_le _, Nat.zero_le _,
        Nat.zero_le _, Nat.zero_le _, Nat.zero_le _, Nat.zero_le _, Nat.zero_le _⟩

/-- Witness for C7 at a concrete input: the handle `"alice"` with the
degraded environment (every optional step failing). -/
theorem fetchGithubUserData_total_nonneg_witness :
    validUsername "alice" = true ∧
    ((∃ r, GithubLib.fetchGithubUserData libEnvDegraded "alice" = Sum.inl r ∧
        NonnegFields r) ∨
      (∃ e, GithubLib.fetchGithubUserData libEnvDegraded "alice" = Sum.inr e)) := by
  exact ⟨by decide, fetchGithubUserData_total_nonneg libEnvDegraded "alice" (by decide)⟩

/-- The sum, as C8 words it, of the last-week windows sampled from the 10
most recently active repositories (the repository list arrives sorted by
recent push activity, so the sample is its first 10 elements). -/
def sampledWeeklySum (env : GithubV2.Env) (now : Nat)
    (repos : List GithubV2.Repo) : Nat :=
  ((repos.take 10).map (fun r => (GithubV2.sampleRepoStats env now r).1)).sum

/-- The sum, as C8 words it, of the last-4-weeks windows sampled from the 10
most recently active repositories. -/
def sampledMonthlySum (env : GithubV2.Env) (now : Nat)
    (repos : List GithubV2.Repo) : Nat :=
  ((repos.take 10).map (fun r => (GithubV2.sampleRepoStats env now r).2.1)).sum

/-- The sum, as C8 words it, of the total counts sampled from the 10 most
recently active repositories. -/
def sampledTotalSum (env : GithubV2.Env) (now : Nat)
    (repos : List GithubV2.Repo) : Nat :=
  ((repos.take 10).map (fun r => (GithubV2.sampleRepoStats env now r).2.2)).sum

/-- A 20-repository list for the C8 scenario. -/
def repos20 : List GithubV2.Repo := List.replicate 20 ⟨"r", "o", 0⟩

/-- An environment for the C8 counterexample: 20 repositories, the total
commit-search query succeeds with 100, the last-30-days query fails (a
search failure, as in C8's premise), and every sampled participation array
is empty, so all sampled sums are 0. -/
def envSearchPartial : GithubV2.Env :=
  { getUser := .ok ⟨"a.png", 3⟩
    listRepos := .ok repos20
    listCommitsPage := fun _ _ => .ok []
    searchTotal := .ok 100
    searchMonth := .error ()
    searchWeek := .error ()
    participation := fun _ => .ok [] }

/-- Counterexample to C8 as stated: with the search failing (at the second
of the three queries) the scaled total is not the scaled *sampled* total —
the 100 already obtained from the first query is folded in before the
`20 / 10` extrapolation, giving 200 where the claim's formula gives 0. -/
theorem efficientAnalysis_partial_search_counterexample :
    (GithubV2.efficientAnalysis envSearchPartial 0 "alice" ⟨"a.png", 3⟩
        repos20).1.stats.totalCommits ≠
      jsRoundDiv (sampledTotalSum envSearchPartial 0 repos20 * repos20.length)
        ((repos20.take 10).length) ∧
    (GithubV2.efficientAnalysis envSearchPartial 0 "alice" ⟨"a.png", 3⟩
        repos20).1.stats.totalCommits = 200 ∧
    jsRoundDiv (sampledTotalSum envSearchPartial 0 repos20 * repos20.length)
      ((repos20.take 10).length) = 0 := by
  exact ⟨by decide, by decide, by decide⟩

/-- C8 as amended: for repository count above 5 the aggregator uses
`efficientAnalysis` (a); when all three commit-search queries (total,
last-30-days, last-7-days) succeed their values are used directly (b); when
a query fails, participation statistics are sampled from the first 10
repositories of the recency-sorted list, their last-week and last-4-weeks
windows summed, and the accumulated weekly, monthly and total counts —
the sampled sums plus any counts already obtained from the queries that
succeeded before the failure — are multiplied by the linear scale factor
`repos.length / sampleRepos.length`, rounded to nearest (c, d, e); in
particular when the first query fails the scaled counts are exactly the
sampled sums (c). -/
theorem efficientAnalysis_fallback_amended :
    (∀ (env : GithubV2.Env) (now weekAgo monthAgo : Nat) (u : String)
        (ud : GithubV2.UserData) (rs : List GithubV2.Repo),
      validUsername u = true → env.getUser = .ok ud → env.listRepos = .ok rs →
      5 < rs.length →
      GithubV2.fetchGithubUserData env now weekAgo monthAgo u =
        (Sum.inl (GithubV2.efficientAnalysis env now u ud rs).1,
          2 + (GithubV2.efficientAnalysis env now u ud rs).2)) ∧
    (∀ (env : GithubV2.Env) (now : Nat) (u : String) (ud : GithubV2.UserData)
        (rs : List GithubV2.Repo) (t m w : Nat),
      env.searchTotal = .ok t → env.searchMonth = .ok m → env.searchWeek = .ok w →
      (GithubV2.efficientAnalysis env now u ud rs).1.stats.totalCommits = t ∧
      (GithubV2.efficientAnalysis env now u ud rs).1.stats.monthlyCommits = m ∧
      (GithubV2.efficientAnalysis env now u ud rs).1.stats.weeklyCommits = w) ∧
    (∀ (env : GithubV2.Env) (now : Nat) (u : String) (ud : GithubV2.UserData)
        (rs : List GithubV2.Repo),
      env.searchTotal = .error () → 0 < rs.length →
      (GithubV2.efficientAnalysis env now u ud rs).1.stats.totalCommits =
        jsRoundDiv (sampledTotalSum env now rs * rs.length) ((rs.take 10).length) ∧
      (GithubV2.efficientAnalysis env now u ud rs).1.stats.monthlyCommits =
        jsRoundDiv (sampledMonthlySum env now rs * rs.length) ((rs.take 10).length) ∧
      (GithubV2.efficientAnalysis env now u ud rs).1.stats.weeklyCommits =
        jsRoundDiv (sampledWeeklySum env now rs * rs.length) ((rs.take 10).length)) ∧
    (∀ (env : GithubV2.Env) (now : Nat) (u : String) (ud : GithubV2.UserData)
        (rs : List GithubV2.Repo) (t : Nat),
      env.searchTotal = .ok t → env.searchMonth = .error () → 0 < rs.length →
      (GithubV2.efficientAnalysis env now u ud rs).1.stats.totalCommits =
        jsRoundDiv ((t + sampledTotalSum env now rs) * rs.length)
          ((rs.take 10).length) ∧
      (GithubV2.efficientAnalysis env now u ud rs).1.stats.monthlyCommits =
        jsRoundDiv (sampledMonthlySum env now rs * rs.length) ((rs.take 10).length) ∧
      (GithubV2.efficientAnalysis env now u ud rs).1.stats.weeklyCommits =
        jsRoundDiv (sampledWeeklySum env now rs * rs.length) ((rs.take 10).length)) ∧
    (∀ (env : GithubV2.Env) (now : Nat) (u : String) (ud : GithubV2.UserData)
        (rs : List GithubV2.Repo) (t m : Nat),
      env.searchTotal = .ok t → env.searchMonth = .ok m → env.searchWeek = .error () →
      0 < rs.length →
      (GithubV2.efficientAnalysis env now u ud rs).1.stats.totalCommits =
        jsRoundDiv ((t + sampledTotalSum env now rs) * rs.length)
          ((rs.take 10).length) ∧
      (GithubV2.efficientAnalysis env now u ud rs).1.stats.monthlyCommits =
        jsRoundDiv ((m + sampledMonthlySum env now rs) * rs.length)
          ((rs.take 10).length) ∧
      (GithubV2.efficientAnalysis env now u ud rs).1.stats.weeklyCommits =
        jsRoundDiv (sampledWeeklySum env now rs * rs.length) ((rs.take 10).length)) := by
  have hne : ∀ (rs : List GithubV2.Repo), 0 < rs.length → ¬ rs = [] := by
    intro rs h hnil
    subst hnil
    simp at h
  refine ⟨?_, ?_, ?_, ?_, ?_⟩
  · intro env now weekAgo monthAgo u ud rs hval hget hrepos hlen
    unfold GithubV2.fetchGithubUserData
    have hnotle : ¬ rs.length ≤ 5 := by omega
    simp [validUsername_isEmpty_false hval, hval, hget, hrepos, hnotle]
  · intro env now u ud rs t m w ht hm hw
    unfold GithubV2.efficientAnalysis
    simp [ht, hm, hw]
  · intro env now u ud rs hfail hpos
    unfold GithubV2.efficientAnalysis GithubV2.efficientFallback
    simp [hfail, hne rs hpos, sampledTotalSum, sampledMonthlySum,
      sampledWeeklySum, List.map_map, List.map_take, Function.comp_def]
  · intro env now u ud rs t ht hfail hpos
    unfold GithubV2.efficientAnalysis GithubV2.efficientFallback
    simp [ht, hfail, hne rs hpos, sampledTotalSum, sampledMonthlySum,
      sampledWeeklySum, List.map_map, List.map_take, Function.comp_def]
  · intro env now u ud rs t m ht hm hfail hpos
    unfold GithubV2.efficientAnalysis GithubV2.efficientFallback
    simp [ht, hm, hfail, hne rs hpos, sampledTotalSum, sampledMonthlySum,
      sampledWeeklySum, List.map_map, List.map_take, Function.comp_def]

/-- Witness for C8 (amended) at concrete inputs: the 20-repository list with
(a, b) all queries succeeding and (c) the first query failing. -/
theorem efficientAnalysis_fallback_amended_witness :
    GithubV2.fetchGithubUserData
        { envAllOk with listRepos := .ok repos20, searchTotal := .ok 100 }
        0 0 0 "alice" =
      (Sum.inl (GithubV2.efficientAnalysis
          { envAllOk with listRepos := .ok repos20, searchTotal := .ok 100 }
          0 "alice" ⟨"a.png", 3⟩ repos20).1,
        2 + (GithubV2.efficientAnalysis
          { envAllOk with listRepos := .ok repos20, searchTotal := .ok 100 }
          0 "alice" ⟨"a.png", 3⟩ repos20).2) ∧
    (GithubV2.efficientAnalysis
        { envAllOk with listRepos := .ok repos20, searchTotal := .ok 100 }
        0 "alice" ⟨"a.png", 3⟩ repos20).1.stats.totalCommits = 100 ∧
    (GithubV2.efficientAnalysis
        { envSearchPartial with searchTotal := .error () }
        0 "alice" ⟨"a.png", 3⟩ repos20).1.stats.totalCommits =
      jsRoundDiv (sampledTotalSum { envSearchPartial with searchTotal := .error () }
          0 repos20 * repos20.length) ((repos20.take 10).length) := by
  refine ⟨?_, ?_, ?_⟩
  · exact efficientAnalysis_fallback_amended.1
      { envAllOk with listRepos := .ok repos20, searchTotal := .ok 100 }
      0 0 0 "alice" ⟨"a.png", 3⟩ repos20 (by decide) rfl rfl (by decide)
  · exact (efficientAnalysis_fallback_amended.2.1
      { envAllOk with listRepos := .ok repos20, searchTotal := .ok 100 }
      0 "alice" ⟨"a.png", 3⟩ repos20 100 6 2 rfl rfl rfl).1
  · exact (efficientAnalysis_fallback_amended.2.2.1
      { envSearchPartial with searchTotal := .error () }
      0 "alice" ⟨"a.png", 3⟩ repos20 rfl (by decide)).1

/-! ## C3, C10: page-level orchestration -/

/-- An aggregator stub for the orchestration scenarios: every username
succeeds and its record carries the username as entered. -/
def fetchEcho : String → Option String := fun u => some u

/-- Counterexample to C3's deduplication scenario as stated: the input batch
is only filtered against the accepted and failed lists, not against itself,
so `addUsers(["alice","alice"])` invokes the aggregator twice for `"alice"`
(and the subsequent `addUsers(["alice"])` zero times) — two aggregator
invocations in total, not one. -/
theorem addUsers_double_submit_counterexample :
    ((Page.handleAddUsers fetchEcho ⟨[], []⟩ ["alice", "alice"]).fetched ++
      (Page.handleAddUsers fetchEcho
        (Page.applyAdd ⟨[], []⟩
          (Page.handleAddUsers fetchEcho ⟨[], []⟩ ["alice", "alice"]))
        ["alice"]).fetched).count "alice" ≠ 1 ∧
    ((Page.handleAddUsers fetchEcho ⟨[], []⟩ ["alice", "alice"]).fetched ++
      (Page.handleAddUsers fetchEcho
        (Page.applyAdd ⟨[], []⟩
          (Page.handleAddUsers fetchEcho ⟨[], []⟩ ["alice", "alice"]))
        ["alice"]).fetched).count "alice" = 2 := by
  exact ⟨by decide, by decide⟩

/-- C3 as amended: `handleAddUsers` filters out every username already
present in the accepted or failed lists by case-sensitive exact string
match and, if the filtered list is empty, returns the zero tally with no
aggregation; the surviving usernames — the input batch is not deduplicated
against itself — are each submitted to the aggregator; in the scenario,
`addUsers(["alice","alice"])` aggregates `"alice"` twice and the following
`addUsers(["alice"])` aggregates it zero times. -/
theorem addUsers_dedup_amended :
    (∀ (fetch : String → Option String) (st : Page.PageState)
        (usernames : List String),
      usernames.filter (fun u =>
        !(st.users.contains u) && !(st.failedUsers.contains u)) = [] →
      Page.handleAddUsers fetch st usernames = ⟨[], [], [], 0, 0⟩) ∧
    (∀ (fetch : String → Option String) (st : Page.PageState)
        (usernames : List String),
      (Page.handleAddUsers fetch st usernames).fetched =
        usernames.filter (fun u =>
          !(st.users.contains u) && !(st.failedUsers.contains u))) ∧
    ((Page.handleAddUsers fetchEcho ⟨[], []⟩ ["alice", "alice"]).fetched.count
        "alice" = 2 ∧
      (Page.handleAddUsers fetchEcho
        (Page.applyAdd ⟨[], []⟩
          (Page.handleAddUsers fetchEcho ⟨[], []⟩ ["alice", "alice"]))
        ["alice"]).fetched.count "alice" = 0) := by
  refine ⟨?_, ?_, by decide, by decide⟩
  · intro fetch st usernames hempty
    unfold Page.handleAddUsers
    split
    · rfl
    · rw [hempty]
      rfl
  · intro fetch st usernames
    unfold Page.handleAddUsers
    split
    · next h =>
      rw [List.isEmpty_iff] at h
      subst h
      rfl
    · dsimp only
      cases hemp : usernames.filter (fun u =>
          !(st.users.contains u) && !(st.failedUsers.contains u)) with
      | nil => rfl
      | cons a l => rfl

/-- Witness for C3 (amended) at concrete inputs. -/
theorem addUsers_dedup_amended_witness :
    Page.handleAddUsers fetchEcho ⟨["alice"], ["bob"]⟩ ["alice", "bob"] =
      ⟨[], [], [], 0, 0⟩ ∧
    (Page.handleAddUsers fetchEcho ⟨["alice"], []⟩ ["alice", "carol"]).fetched =
      (["alice", "carol"].filter (fun u =>
        !((["alice"] : List String).contains u) &&
        !(([] : List String).contains u))) := by
  exact ⟨addUsers_dedup_amended.1 fetchEcho ⟨["alice"], ["bob"]⟩ ["alice", "bob"]
      (by decide),
    addUsers_dedup_amended.2.1 fetchEcho ⟨["alice"], []⟩ ["alice", "carol"]⟩

/-- C10, evaluated at the failing input: with `failedUsers = ["alice"]`,
`handleRetryUser "alice"` performs zero aggregator invocations and returns
the zero tally — the same-render `handleAddUsers` closure still reads the
snapshot failed list containing `"alice"` and filters the retry out — and
the final state merely drops `"alice"` from the failed list.  This
contradicts C10's intent (and §4.5/§7 of the specification) that a
previously failed username be submitted for a fresh aggregation. -/
theorem handleRetryUser_stale_snapshot_eval :
    (Page.handleRetryUser fetchEcho ⟨[], ["alice"]⟩ "alice").1.fetched = [] ∧
    (Page.handleRetryUser fetchEcho ⟨[], ["alice"]⟩ "alice").1.success = 0 ∧
    (Page.handleRetryUser fetchEcho ⟨[], ["alice"]⟩ "alice").1.errors = 0 ∧
    (Page.handleRetryUser fetchEcho ⟨[], ["alice"]⟩ "alice").2 = ⟨[], []⟩ := by
  exact ⟨by decide, by decide, by decide, by decide⟩

end ShipTracker
